import Mathlib

/-!
Verification of `npdl/optimizers.py` (NumpyDL): gradient-descent parameter
update rules, gradient clipping, and the optimizer registry.

Numeric arrays are embedded as lists of exact scalars: `List ℚ` where the
source stays in ring operations, and `List ℝ` where `np.sqrt` enters
(Adagrad).  A parameter list mutated in place by
Python is embedded as a function returning the new list; Python `zip`
truncates to the shortest input, so the untouched tail of `params` is
appended back unchanged.
-/

namespace Npdl

/-- Numeric array over exact rationals (one `np.ndarray`, flattened). -/
abbrev Arr := List ℚ

/-- An ordered sequence of arrays (`params`, `grads`, or a state list). -/
abbrev Arrays := List Arr

/-- Embeds `_zero(shape)` from `npdl.initializations`: a zero-filled array. -/
def zeroArr (n : Nat) : Arr := List.replicate n 0

/-- Embeds `npdl_clip(grad, boundary)`: if `boundary > 0`, `np.clip(grad, -boundary,
boundary)` (elementwise bound into the interval); otherwise the gradient is
returned unmodified. -/
def npdl_clip (grad : Arr) (boundary : ℚ) : Arr :=
  if boundary > 0 then grad.map (fun x => min (max x (-boundary)) boundary) else grad

/-- Embeds `SGD.update(params, grads)`: `for p, g in zip(params, grads): p -= lr *
npdl_clip(g, clip)`.  `zip` pairs the common length; parameters past it are
untouched. -/
def SGD.update (lr clip : ℚ) (params grads : Arrays) : Arrays :=
  ((params.zip grads).map (fun pg =>
    List.zipWith (fun x y => x - lr * y) pg.1 (npdl_clip pg.2 clip)))
  ++ params.drop (params.zip grads).length

/-- Embeds `Momentum.update(params, grads)`: initializes `self.velocity` to zero
arrays shaped like `params` when it is `None`, then `for v, p, g in
zip(self.velocity, params, grads): v = momentum * v - lr * g; p += v`.
The assignment `v = ...` rebinds the loop variable to a fresh array and never
writes back into `self.velocity`, so the stored velocity is returned exactly
as initialized; only `p += v` mutates.  `self.clip` is never read. -/
def Momentum.update (momentum lr clip : ℚ) (velocity : Option Arrays)
    (params grads : Arrays) : Option Arrays × Arrays :=
  let vel := velocity.getD (params.map (fun p => zeroArr p.length))
  let zipped := vel.zip (params.zip grads)
  let upd := zipped.map (fun vpg =>
    let v := List.zipWith (fun vi gi => momentum * vi - lr * gi) vpg.1 vpg.2.2
    List.zipWith (fun pi vi => pi + vi) vpg.2.1 v)
  (some vel, upd ++ params.drop zipped.length)

/-- Embeds `NesterovMomentum.update(params, grads)`: same state handling as
`Momentum.update`, but `for v, p, g in zip(self.velocity, params, grads):
v = momentum * v - lr * g; p += (momentum * v - lr * g)`.  As in `Momentum`,
the rebound `v` is never written back into `self.velocity`, and `self.clip`
is never read. -/
def NesterovMomentum.update (momentum lr clip : ℚ) (velocity : Option Arrays)
    (params grads : Arrays) : Option Arrays × Arrays :=
  let vel := velocity.getD (params.map (fun p => zeroArr p.length))
  let zipped := vel.zip (params.zip grads)
  let upd := zipped.map (fun vpg =>
    let v := List.zipWith (fun vi gi => momentum * vi - lr * gi) vpg.1 vpg.2.2
    let step := List.zipWith (fun vi gi => momentum * vi - lr * gi) v vpg.2.2
    List.zipWith (fun pi si => pi + si) vpg.2.1 step)
  (some vel, upd ++ params.drop zipped.length)

/-- The updated parameter list has the same length as `params`: positions past
the zipped range are carried over unchanged. -/
theorem SGD.update_length (lr c : ℚ) (ps gs : Arrays) :
    (SGD.update lr c ps gs).length = ps.length := by
  simp [SGD.update, List.length_zip]

/-- Within the zipped range, parameter `i` becomes
`p_i - lr * npdl_clip(g_i, clip)` elementwise. -/
theorem SGD.update_getElem_lt (lr c : ℚ) (ps gs : Arrays) (i : ℕ)
    (h1 : i < ps.length) (h2 : i < gs.length) :
    (SGD.update lr c ps gs)[i]? =
      some (List.zipWith (fun x y => x - lr * y) ps[i] (npdl_clip gs[i] c)) := by
  have hz : i < (ps.zip gs).length := by simp [List.length_zip]; omega
  rw [SGD.update, List.getElem?_append_left (by simpa using hz), List.getElem?_map]
  simp [List.getElem?_eq_getElem hz, List.getElem_zip]

/-- Past the zipped range, parameter `i` is returned unchanged. -/
theorem SGD.update_getElem_ge (lr c : ℚ) (ps gs : Arrays) (i : ℕ)
    (h1 : i < ps.length) (h2 : gs.length ≤ i) :
    (SGD.update lr c ps gs)[i]? = some ps[i] := by
  have hz : (ps.zip gs).length = gs.length := by simp [List.length_zip]; omega
  rw [SGD.update, List.getElem?_append_right (by simpa [hz] using h2)]
  have he : gs.length + (i - gs.length) = i := by omega
  simp [hz, List.getElem?_drop, he, List.getElem?_eq_getElem h1]

/-- C10: `SGD.update` on the single parameter `p = 1.0` with gradient
`g = 2.0`, `lr = 0.1` and clipping disabled (`clip = -1`) yields exactly
`p = 0.8`; in general every parameter in the zipped range receives
`p_i := p_i - lr * npdl_clip(g_i, clip)` elementwise.  SGD allocates no
auxiliary state: its update reads and writes only the parameter list. -/
theorem sgd_update_correct :
    SGD.update (1/10) (-1) [[1]] [[2]] = [[4/5]] ∧
    ∀ (lr c : ℚ) (ps gs : Arrays) (i : ℕ),
      (h1 : i < ps.length) → (h2 : i < gs.length) →
      (SGD.update lr c ps gs)[i]? =
        some (List.zipWith (fun x y => x - lr * y) ps[i] (npdl_clip gs[i] c)) := by
  refine ⟨by norm_num [SGD.update, npdl_clip], ?_⟩
  intro lr c ps gs i h1 h2
  exact SGD.update_getElem_lt lr c ps gs i h1 h2

/-- Witness for C10 at `lr = 1/10`, `clip = -1`, `params = [[1]]`,
`grads = [[2]]`, `i = 0`. -/
theorem sgd_update_correct_witness :
    (SGD.update (1/10) (-1) [[1]] [[2]])[0]? =
      some (List.zipWith (fun x y => x - (1/10) * y) [1] (npdl_clip [2] (-1))) :=
  sgd_update_correct.2 (1/10) (-1) [[1]] [[2]] 0 (by decide) (by decide)

/-- C3 counterexample: `SGD.update` with `len(params) = 2 ≠ 1 = len(grads)`
raises nothing (the source has no length check; `zip` silently truncates) and
mutates the first parameter while leaving the second unchanged — a partial
mutation, contradicting both the claimed `ShapeMismatch` failure and the
claimed all-or-nothing behavior. -/
theorem sgd_mismatch_mutates_head :
    SGD.update (1/10) (-1) [[1], [2]] [[4]] = [[3/5], [2]] ∧
    ([[3/5], [2]] : Arrays) ≠ [[1], [2]] := by
  constructor
  · norm_num [SGD.update, npdl_clip]
  · norm_num

/-- C3 amended: `update` performs no length check; it silently updates the
first `min(len(params), len(grads))` parameters by the SGD formula and leaves
every later parameter unchanged, returning a list of the same length. -/
theorem sgd_mismatch_truncates (lr c : ℚ) (ps gs : Arrays) :
    (SGD.update lr c ps gs).length = ps.length ∧
    (∀ i : ℕ, (h1 : i < ps.length) → (h2 : i < gs.length) →
      (SGD.update lr c ps gs)[i]? =
        some (List.zipWith (fun x y => x - lr * y) ps[i] (npdl_clip gs[i] c))) ∧
    (∀ i : ℕ, (h1 : i < ps.length) → gs.length ≤ i →
      (SGD.update lr c ps gs)[i]? = some ps[i]) := by
  refine ⟨SGD.update_length lr c ps gs, ?_, ?_⟩
  · intro i h1 h2; exact SGD.update_getElem_lt lr c ps gs i h1 h2
  · intro i h1 h2; exact SGD.update_getElem_ge lr c ps gs i h1 h2

/-- Witness for the amended C3 on the mismatched input `params = [[1], [2]]`,
`grads = [[4]]`: length preserved, position `0` updated, position `1`
untouched. -/
theorem sgd_mismatch_truncates_witness :
    (SGD.update (1/10) (-1) [[1], [2]] [[4]]).length = 2 ∧
    (SGD.update (1/10) (-1) [[1], [2]] [[4]])[0]? =
      some (List.zipWith (fun x y => x - (1/10) * y) [1] (npdl_clip [4] (-1))) ∧
    (SGD.update (1/10) (-1) [[1], [2]] [[4]])[1]? = some [2] :=
  ⟨(sgd_mismatch_truncates (1/10) (-1) [[1], [2]] [[4]]).1,
   (sgd_mismatch_truncates (1/10) (-1) [[1], [2]] [[4]]).2.1 0 (by decide) (by decide),
   (sgd_mismatch_truncates (1/10) (-1) [[1], [2]] [[4]]).2.2 1 (by decide) (by decide)⟩

/-- C1 (documents the code bug): in `Momentum.update` the loop assignment
`v = momentum * v - lr * g` rebinds the loop variable without writing back to
`self.velocity`, so the stored velocity stays zero.  With `p = 1.0`,
`g = 1.0`, `momentum = 0.9`, `lr = 0.1`: the first call does give `p = 0.9`,
but the second call gives `p = 0.8` with stored velocity still `0`, not the
`p = 0.71`, `v = -0.19` that persisting the velocity would give. -/
theorem momentum_velocity_not_persisted :
    Momentum.update (9/10) (1/10) (-1) none [[1]] [[1]] = (some [[0]], [[9/10]]) ∧
    Momentum.update (9/10) (1/10) (-1)
        (Momentum.update (9/10) (1/10) (-1) none [[1]] [[1]]).1
        (Momentum.update (9/10) (1/10) (-1) none [[1]] [[1]]).2 [[1]]
      = (some [[0]], [[4/5]]) ∧
    ((4 : ℚ)/5 ≠ 71/100) ∧ ((0 : ℚ) ≠ -(19/100)) := by
  refine ⟨?_, ?_, by norm_num, by norm_num⟩ <;>
    norm_num [Momentum.update, zeroArr]

/-- C2 (documents the code bug): `Momentum.update` never reads `self.clip`
(its result is the same for any two clip thresholds), and with
`clip = 1/2 > 0` it still applies the raw gradient `g = 2` of magnitude
`2 > 1/2`, yielding `p = 0.8`, whereas `SGD.update` with the same inputs
clips the gradient to `1/2` and yields `p = 0.95`. -/
theorem momentum_update_ignores_clip :
    (∀ (c₁ c₂ : ℚ) (vel : Option Arrays) (ps gs : Arrays),
      Momentum.update (9/10) (1/10) c₁ vel ps gs
        = Momentum.update (9/10) (1/10) c₂ vel ps gs) ∧
    Momentum.update (9/10) (1/10) (1/2) none [[1]] [[2]] = (some [[0]], [[4/5]]) ∧
    SGD.update (1/10) (1/2) [[1]] [[2]] = [[19/20]] ∧
    ¬ ((2 : ℚ) ≤ 1/2) := by
  refine ⟨fun c₁ c₂ vel ps gs => rfl, ?_, ?_, by norm_num⟩
  · norm_num [Momentum.update, zeroArr]
  · norm_num [SGD.update, npdl_clip]

/-- C7 (documents the code bug): `NesterovMomentum.update` computes the
per-call step `p += momentum * v - lr * g` with `v = momentum * v_stored -
lr * g`, but the rebound `v` is never written back to `self.velocity`, so the
stored velocity stays zero.  With `p = 1.0`, `g = 1.0`, `momentum = 0.9`,
`lr = 0.1`: the first call gives `p = 0.81` as the persisted-velocity reading
also would, but the second call gives `p = 0.62` with stored velocity still
`0`, not the `p = 0.539`, `v = -0.19` of a persisted velocity. -/
theorem nesterov_velocity_not_persisted :
    NesterovMomentum.update (9/10) (1/10) (-1) none [[1]] [[1]]
      = (some [[0]], [[81/100]]) ∧
    NesterovMomentum.update (9/10) (1/10) (-1)
        (NesterovMomentum.update (9/10) (1/10) (-1) none [[1]] [[1]]).1
        (NesterovMomentum.update (9/10) (1/10) (-1) none [[1]] [[1]]).2 [[1]]
      = (some [[0]], [[31/50]]) ∧
    ((31 : ℚ)/50 ≠ 539/1000) := by
  refine ⟨?_, ?_, by norm_num⟩ <;>
    norm_num [NesterovMomentum.update, zeroArr]

/-! ### Abstract base class and the stub optimizers -/

/-- The exceptions the module raises: `NotImplementedError` from the abstract
`Optimizer.update`, and `ValueError(msg)` from `get`. -/
inductive NpdlErr where
  | notImplemented
  | valueError (msg : String)
deriving DecidableEq

/-- Embeds `Optimizer.update(params, grads)` in the abstract base class:
`raise NotImplementedError` before touching any input.  An `.error` result
models the raise: no parameter or state is produced or mutated. -/
def Optimizer.update (params grads : Arrays) : Except NpdlErr Arrays :=
  .error .notImplemented

/-- Stub: `RMSprop` defines only `__init__`; `update` is inherited unchanged from
`Optimizer`. -/
def RMSprop.update (params grads : Arrays) : Except NpdlErr Arrays :=
  Optimizer.update params grads

/-- Stub: `Adadelta` defines only `__init__`; `update` is inherited unchanged from
`Optimizer`. -/
def Adadelta.update (params grads : Arrays) : Except NpdlErr Arrays :=
  Optimizer.update params grads

/-- Stub: `Adam` defines only `__init__`; `update` is inherited unchanged from
`Optimizer`. -/
def Adam.update (params grads : Arrays) : Except NpdlErr Arrays :=
  Optimizer.update params grads

/-- Stub: `Adamax` defines only `__init__`; `update` is inherited unchanged from
`Optimizer`. -/
def Adamax.update (params grads : Arrays) : Except NpdlErr Arrays :=
  Optimizer.update params grads

/-- C5: calling `update` on the abstract `Optimizer` base, or on an instance
of `RMSprop`, `Adadelta`, `Adam` or `Adamax` (none of which overrides it),
raises `NotImplementedError` for every input; the raise happens before any
parameter or optimizer state is touched, so nothing is mutated. -/
theorem stub_update_not_implemented :
    ∀ ps gs : Arrays,
      Optimizer.update ps gs = .error .notImplemented ∧
      RMSprop.update ps gs = .error .notImplemented ∧
      Adadelta.update ps gs = .error .notImplemented ∧
      Adam.update ps gs = .error .notImplemented ∧
      Adamax.update ps gs = .error .notImplemented :=
  fun ps gs => ⟨rfl, rfl, rfl, rfl, rfl⟩

/-- C4 (documents the code bug): the claimed Adam algorithm is unimplemented.
`Adam` defines only `__init__` and inherits the abstract `Optimizer.update`,
so `Adam.update` raises `NotImplementedError` on every input — in particular
on a concrete single-parameter call, where the claimed rule (`t := t + 1`
once per call, then the bias-corrected moment update of each parameter) would
instead succeed and move the parameter.  No step counter, moment array or
bias-corrected formula exists anywhere in the source. -/
theorem adam_update_unimplemented :
    Adam.update [[1]] [[2]] = .error .notImplemented ∧
    ∀ ps gs : Arrays, Adam.update ps gs = .error .notImplemented :=
  ⟨rfl, fun ps gs => rfl⟩

/-! ### The optimizer registry -/

/-- A constructed optimizer instance: each class's own attributes, holding the
constructor defaults of the source when built by `get` (`lr = 0.001`,
`clip = -1`, `momentum = 0.9`, `epsilon = 1e-6`; `velocity` and `cache` start
as `None`). -/
inductive OptInstance where
  | sgd (lr clip : ℚ)
  | momentum (lr clip mom : ℚ) (velocity : Option Arrays)
  | nesterovMomentum (lr clip mom : ℚ) (velocity : Option Arrays)
  | adagrad (lr clip eps : ℚ) (cache : Option Arrays)
  | rmsprop (lr clip : ℚ)
  | adadelta (lr clip : ℚ)
  | adam (lr clip : ℚ)
  | adamax (lr clip : ℚ)
deriving DecidableEq

/-- Embeds `get(optimizer)` for a string argument: each recognized name is matched
against exactly the two spellings of its membership list (lowercase and the
class name); anything else raises `ValueError`.  Every successful branch
constructs a fresh instance with the default hyperparameters. -/
def get (optimizer : String) : Except NpdlErr OptInstance :=
  if optimizer ∈ ["sgd", "SGD"] then .ok (.sgd (1/1000) (-1))
  else if optimizer ∈ ["momentum", "Momentum"] then
    .ok (.momentum (1/1000) (-1) (9/10) none)
  else if optimizer ∈ ["nesterov_momentum", "NesterovMomentum"] then
    .ok (.nesterovMomentum (1/1000) (-1) (9/10) none)
  else if optimizer ∈ ["adagrad", "Adagrad"] then
    .ok (.adagrad (1/1000) (-1) (1/1000000) none)
  else if optimizer ∈ ["rmsprop", "RMSprop"] then .ok (.rmsprop (1/1000) (-1))
  else if optimizer ∈ ["adadelta", "Adadelta"] then .ok (.adadelta (1/1000) (-1))
  else if optimizer ∈ ["adam", "Adam"] then .ok (.adam (1/1000) (-1))
  else if optimizer ∈ ["adamax", "Adamax"] then .ok (.adamax (1/1000) (-1))
  else .error (.valueError optimizer)

/-- C6 counterexample: `"ADAM"` matches `"adam"` case-insensitively, yet
`get("ADAM")` raises `ValueError` instead of constructing an `Adam`:
the registry is not case-insensitive. -/
theorem get_not_case_insensitive :
    "ADAM".data.map Char.toLower = "adam".data ∧
    get "ADAM" = .error (.valueError "ADAM") :=
  ⟨by decide, rfl⟩

/-- C6 amended: the registry accepts, per optimizer, exactly the two literal
spellings of the source (the lowercase name and the class name); each accepted
spelling constructs a fresh instance with default hyperparameters; in
particular `get "adam"` and `get "Adam"` both yield a default `Adam`. -/
theorem get_exact_spellings :
    (get "sgd" = .ok (.sgd (1/1000) (-1)) ∧ get "SGD" = .ok (.sgd (1/1000) (-1))) ∧
    (get "momentum" = .ok (.momentum (1/1000) (-1) (9/10) none) ∧
     get "Momentum" = .ok (.momentum (1/1000) (-1) (9/10) none)) ∧
    (get "nesterov_momentum" = .ok (.nesterovMomentum (1/1000) (-1) (9/10) none) ∧
     get "NesterovMomentum" = .ok (.nesterovMomentum (1/1000) (-1) (9/10) none)) ∧
    (get "adagrad" = .ok (.adagrad (1/1000) (-1) (1/1000000) none) ∧
     get "Adagrad" = .ok (.adagrad (1/1000) (-1) (1/1000000) none)) ∧
    (get "rmsprop" = .ok (.rmsprop (1/1000) (-1)) ∧
     get "RMSprop" = .ok (.rmsprop (1/1000) (-1))) ∧
    (get "adadelta" = .ok (.adadelta (1/1000) (-1)) ∧
     get "Adadelta" = .ok (.adadelta (1/1000) (-1))) ∧
    (get "adam" = .ok (.adam (1/1000) (-1)) ∧
     get "Adam" = .ok (.adam (1/1000) (-1))) ∧
    (get "adamax" = .ok (.adamax (1/1000) (-1)) ∧
     get "Adamax" = .ok (.adamax (1/1000) (-1))) :=
  ⟨⟨rfl, rfl⟩, ⟨rfl, rfl⟩, ⟨rfl, rfl⟩, ⟨rfl, rfl⟩, ⟨rfl, rfl⟩, ⟨rfl, rfl⟩,
   ⟨rfl, rfl⟩, ⟨rfl, rfl⟩⟩

/-! ### Adagrad and Adam, over `ℝ` (their formulas use `np.sqrt`) -/

/-- Numeric array over the reals, for the methods whose formulas take square
roots. -/
abbrev RArr := List ℝ

/-- An ordered sequence of real arrays. -/
abbrev RArrays := List RArr

/-- Embeds `_zero(shape)` over the reals. -/
def zeroRArr (n : Nat) : RArr := List.replicate n 0

/-- One Adagrad cache increment on a single array: `c += np.power(g, 2)`,
elementwise.  This `+=` mutates the stored array in place, so — unlike the
momentum methods — the Adagrad cache genuinely persists across calls. -/
noncomputable def adagradCacheArr (c g : RArr) : RArr :=
  List.zipWith (fun ci gi => ci + gi ^ 2) c g

/-- One Adagrad parameter step on a single array:
`p -= lr * g / (np.sqrt(c) + epsilon)`, where `c` is the freshly incremented
cache; `epsilon` is added after the square root, not inside it. -/
noncomputable def adagradParamArr (lr eps : ℝ) (p c1 g : RArr) : RArr :=
  List.zipWith (fun pi cg => pi - lr * cg.2 / (Real.sqrt cg.1 + eps)) p (c1.zip g)

/-- Embeds `Adagrad.update(params, grads)`: initializes `self.cache` to zero
arrays shaped like `grads` when it is `None`, then `for c, p, g in
zip(self.cache, params, grads): c += np.power(g, 2); p -= lr * g /
(np.sqrt(c) + epsilon)`.  `self.clip` is never read. -/
noncomputable def Adagrad.update (lr clip eps : ℝ) (cache : Option RArrays)
    (params grads : RArrays) : Option RArrays × RArrays :=
  let ca := cache.getD (grads.map (fun g => zeroRArr g.length))
  let zipped := ca.zip (params.zip grads)
  let newCache :=
    (zipped.map (fun cpg => adagradCacheArr cpg.1 cpg.2.2)) ++ ca.drop zipped.length
  let newParams :=
    (zipped.map (fun cpg =>
      adagradParamArr lr eps cpg.2.1 (adagradCacheArr cpg.1 cpg.2.2) cpg.2.2))
    ++ params.drop zipped.length
  (some newCache, newParams)

/-- Reading a list at an in-range index: `getD` agrees with `getElem`. -/
theorem getD_lt {α} (l : List α) (i : ℕ) (d : α) (h : i < l.length) :
    l.getD i d = l[i] := by
  simp [List.getD_eq_getElem?_getD, List.getElem?_eq_getElem h]

/-- Reading a `zipWith` at an in-range index, `getD` form with defaults. -/
theorem getD_zipWith {α β γ} (f : α → β → γ) (a : List α) (b : List β)
    (i : ℕ) (d₁ : α) (d₂ : β) (d₃ : γ) (h1 : i < a.length) (h2 : i < b.length) :
    (List.zipWith f a b).getD i d₃ = f (a.getD i d₁) (b.getD i d₂) := by
  rw [getD_lt _ _ _ h1, getD_lt _ _ _ h2,
    getD_lt _ _ _ (by simp [List.length_zipWith]; omega)]
  simp [List.getElem_zipWith]

/-- After one `Adagrad.update` call with an initialized cache, cache array `i`
is the old array incremented elementwise by the squared gradient. -/
theorem adagrad_newCache_getD (lr c eps : ℝ) (cache params grads : RArrays)
    (i : ℕ) (hi1 : i < cache.length) (hi2 : i < params.length)
    (hi3 : i < grads.length) :
    ((Adagrad.update lr c eps (some cache) params grads).1.getD []).getD i []
      = adagradCacheArr cache[i] grads[i] := by
  have hz : i < (cache.zip (params.zip grads)).length := by
    simp [List.length_zip]; omega
  simp only [Adagrad.update, Option.getD_some]
  rw [getD_lt _ _ _ (by simp [List.length_zip, List.length_map]; omega)]
  rw [List.getElem_append_left (by simpa using hz)]
  simp [List.getElem_zip]

/-- C9: one `Adagrad.update` call adds `g_ij²` to every cache element, so the
cache is elementwise non-decreasing across the call, and consequently the
learning-rate-equivalent factor `lr / (sqrt c + eps)` of the parameter-step
formula is elementwise non-increasing between the two successive states. -/
theorem adagrad_cache_monotone (lr c eps : ℝ) (cache params grads : RArrays)
    (i j : ℕ) (hlr : 0 ≤ lr) (heps : 0 < eps)
    (hi1 : i < cache.length) (hi2 : i < params.length) (hi3 : i < grads.length)
    (hj1 : j < (cache.getD i []).length) (hj2 : j < (grads.getD i []).length) :
    let c1 := (cache.getD i []).getD j 0
    let g1 := (grads.getD i []).getD j 0
    let c2 := (((Adagrad.update lr c eps (some cache) params grads).1.getD
        []).getD i []).getD j 0
    c2 = c1 + g1 ^ 2 ∧ c1 ≤ c2 ∧
      lr / (Real.sqrt c2 + eps) ≤ lr / (Real.sqrt c1 + eps) := by
  intro c1 g1 c2
  have key : c2 = c1 + g1 ^ 2 := by
    show (((Adagrad.update lr c eps (some cache) params grads).1.getD
        []).getD i []).getD j 0
      = (cache.getD i []).getD j 0 + ((grads.getD i []).getD j 0) ^ 2
    rw [adagrad_newCache_getD lr c eps cache params grads i hi1 hi2 hi3]
    have hj1' : j < (cache[i] : RArr).length := by
      rw [← getD_lt _ _ _ hi1]; exact hj1
    have hj2' : j < (grads[i] : RArr).length := by
      rw [← getD_lt _ _ _ hi3]; exact hj2
    rw [adagradCacheArr, getD_zipWith _ _ _ j 0 0 0 hj1' hj2',
      getD_lt cache _ _ hi1, getD_lt grads _ _ hi3]
  refine ⟨key, ?_, ?_⟩
  · rw [key]; nlinarith [sq_nonneg g1]
  · have h1 : (0:ℝ) < Real.sqrt c1 + eps := by
      have := Real.sqrt_nonneg c1; linarith
    have h2 : Real.sqrt c1 + eps ≤ Real.sqrt c2 + eps := by
      have hle : c1 ≤ c2 := by rw [key]; nlinarith [sq_nonneg g1]
      have := Real.sqrt_le_sqrt hle
      linarith
    exact div_le_div_of_nonneg_left hlr h1 h2

/-- Witness for C9 at `lr = 1/10`, `clip = -1`, `eps = 1`, `cache = [[1]]`,
`params = [[1]]`, `grads = [[2]]`, `i = j = 0`: the cache element does not
decrease across the call. -/
theorem adagrad_cache_monotone_witness :
    (([[(1:ℝ)]] : RArrays).getD 0 []).getD 0 0
      ≤ (((Adagrad.update (1/10) (-1) 1 (some [[1]]) [[1]] [[2]]).1.getD
          []).getD 0 []).getD 0 0 :=
  (adagrad_cache_monotone (1/10) (-1) 1 [[1]] [[1]] [[2]] 0 0
    (by norm_num) (by norm_num) (by decide) (by decide) (by decide)
    (by simp) (by simp)).2.1

/-! ### The registry's deep copy of a stateful instance (heap model)

Python objects are mutable and aliased; `copy.deepcopy` in `get` matters
exactly because a shallow copy would share the `self.cache` arrays.  The heap
below makes that observable: a cell holds the cache object of one `Adagrad`
instance, an instance holds a reference (`self.cache`) into the heap, and
`update` writes through the reference.  `deepcopy` copies the scalar
configuration and clones the cache into a fresh cell. -/

/-- Heap of mutable cache objects, addressed by position. -/
abbrev Heap := List RArrays

/-- An `Adagrad` instance as an object: scalar configuration plus the
reference held in `self.cache` (`none` before the first `update` call). -/
structure AdagradInst where
  lr : ℝ
  clip : ℝ
  epsilon : ℝ
  cacheRef : Option ℕ

/-- Embeds `copy.deepcopy` on an `Adagrad` instance: scalars are copied, and
an initialized cache is recursively cloned into a fresh heap cell, so the
copy shares no mutable state with the original. -/
def AdagradInst.deepcopy (h : Heap) (o : AdagradInst) : Heap × AdagradInst :=
  match o.cacheRef with
  | none => (h, o)
  | some r => (h ++ [h.getD r []], ⟨o.lr, o.clip, o.epsilon, some h.length⟩)

/-- Embeds `Adagrad.update` acting through the heap: reads the cache cell
(allocating a fresh one on the first call), writes the incremented cache back
into the same cell, and returns the updated parameters. -/
noncomputable def AdagradInst.updateH (h : Heap) (o : AdagradInst)
    (params grads : RArrays) : Heap × AdagradInst × RArrays :=
  match o.cacheRef with
  | none =>
    let r := Adagrad.update o.lr o.clip o.epsilon none params grads
    (h ++ [r.1.getD []], ⟨o.lr, o.clip, o.epsilon, some h.length⟩, r.2)
  | some ref =>
    let r := Adagrad.update o.lr o.clip o.epsilon (some (h.getD ref [])) params grads
    (h.set ref (r.1.getD []), o, r.2)

/-- C8: resolving an existing initialized `Adagrad` instance through the
registry's `copy.deepcopy` yields a distinct object (a fresh cache cell) with
equal configuration and equal cache contents; a subsequent `update` on the
copy leaves the original's cache cell untouched, and an `update` on the
original leaves the copy's cache cell untouched. -/
theorem deepcopy_state_independent (h : Heap) (o : AdagradInst) (r : ℕ)
    (params grads : RArrays) (href : o.cacheRef = some r) (hlt : r < h.length) :
    let hc := AdagradInst.deepcopy h o
    (hc.2.cacheRef = some h.length ∧ hc.2.lr = o.lr ∧ hc.2.clip = o.clip ∧
      hc.2.epsilon = o.epsilon ∧ hc.1.getD h.length [] = h.getD r []) ∧
    (AdagradInst.updateH hc.1 hc.2 params grads).1.getD r [] = h.getD r [] ∧
    (AdagradInst.updateH hc.1 o params grads).1.getD h.length []
      = hc.1.getD h.length [] := by
  obtain ⟨olr, oclip, oeps, ocr⟩ := o
  simp only [AdagradInst.cacheRef] at href
  subst href
  intro hc
  have happ : (h ++ [h.getD r []]).getD h.length [] = h.getD r [] := by
    simp [List.getD_eq_getElem?_getD, List.getElem?_append_right (le_refl h.length)]
  have hget_r : (h ++ [h.getD r []]).getD r [] = h.getD r [] := by
    simp [List.getD_eq_getElem?_getD, List.getElem?_append_left hlt]
  refine ⟨⟨rfl, rfl, rfl, rfl, happ⟩, ?_, ?_⟩
  · show ((h ++ [h.getD r []]).set h.length _).getD r [] = h.getD r []
    rw [List.getD_eq_getElem?_getD, List.getElem?_set_ne (by omega),
      ← List.getD_eq_getElem?_getD]
    exact hget_r
  · show ((h ++ [h.getD r []]).set r _).getD h.length []
      = (h ++ [h.getD r []]).getD h.length []
    rw [List.getD_eq_getElem?_getD, List.getElem?_set_ne (by omega),
      ← List.getD_eq_getElem?_getD]

/-- Witness for C8 on a one-cell heap holding the cache `[[0]]`, an instance
referencing cell `0`, and an update with `params = [[1]]`, `grads = [[1]]`. -/
theorem deepcopy_state_independent_witness :
    let hc := AdagradInst.deepcopy [[[(0:ℝ)]]] (AdagradInst.mk (1/10) (-1) 1 (some 0))
    (hc.2.cacheRef = some 1 ∧ hc.2.lr = 1/10 ∧ hc.2.clip = -1 ∧
      hc.2.epsilon = 1 ∧ hc.1.getD 1 [] = ([[[(0:ℝ)]]] : Heap).getD 0 []) ∧
    (AdagradInst.updateH hc.1 hc.2 [[1]] [[1]]).1.getD 0 []
      = ([[[(0:ℝ)]]] : Heap).getD 0 [] ∧
    (AdagradInst.updateH hc.1 (AdagradInst.mk (1/10) (-1) 1 (some 0)) [[1]] [[1]]).1.getD 1 []
      = hc.1.getD 1 [] :=
  deepcopy_state_independent [[[(0:ℝ)]]] (AdagradInst.mk (1/10) (-1) 1 (some 0))
    0 [[1]] [[1]] rfl (by decide)

end Npdl
